import Mathlib

/-!
Verification of the experience-replay buffer subsystem (`replay_buffer.py`).

The file gives a shallow embedding of the three buffer classes of the source
file — `ReplayBuffer` (the spec calls it `UniformBuffer`),
`PrioritizedReplayBuffer` (`StratifiedBuffer`) and `PrioritizedReplayBuffer2`
(`WeightedStratifiedBuffer`) — together with the module-level `softmax`
function, and proves or refutes the frozen claims about them.

Modelling conventions:
* A python `deque` is a `List`, oldest element first, newest last.
* Rewards and the sampling ratio are embedded as `ℚ` (exact arithmetic in
  place of IEEE floats); the reward values fed to `softmax` are embedded as
  `ℝ` because the claims about the weights involve `Real.exp`.
* A pseudo-random generator is an arbitrary stream of naturals together with
  a read position (`Rng`).  Each value read from the stream encodes one draw
  made by the library routine being modelled (`random.sample`,
  `np.random.choice`); python's global `random` generator and numpy's global
  generator are two independent such streams (`Globals`).  `random.seed(s)`
  replaces the python stream by one determined by the seed via an arbitrary
  function `mt : Nat → Nat → Nat` (the Mersenne-Twister seeding, kept
  abstract as a parameter); the numpy stream is never re-seeded anywhere in
  the source.
* Python exceptions are embedded as `Except String`; operations that cannot
  raise keep a plain return type.
-/

/-- A pseudo-random generator: an infinite stream of naturals `f` and the
position `pos` of the next value to be consumed. -/
structure Rng where
  f : Nat → Nat
  pos : Nat

/-- Read one value from the stream, advancing the position. -/
def Rng.next (g : Rng) : Nat × Rng :=
  (g.f g.pos, ⟨g.f, g.pos + 1⟩)

/-- The global interpreter state relevant to the buffers: the state of
python's global `random` generator and of numpy's global generator.  The
source seeds only the former (`random.seed(random_seed)` in each
constructor); numpy's generator keeps whatever state the process start gave
it. -/
structure Globals where
  py : Rng
  np : Rng

/-- One stored experience `(s, a, r, t, s2)`, as appended by `add`.  The
state and action payloads are opaque to the buffer. -/
structure Transition (σ α : Type) where
  s : σ
  a : α
  r : ℚ
  t : Bool
  s2 : σ
deriving DecidableEq

/-- The value returned by every `sample_batch` / `last_n_batch`: five
parallel column sequences, index `i` across all five being one transition. -/
structure Batch (σ α : Type) where
  s_batch : List σ
  a_batch : List α
  r_batch : List ℚ
  t_batch : List Bool
  s2_batch : List σ
deriving DecidableEq

/-- Column-wise stacking of a list of transitions, as done by the five
`np.array([_[i] for _ in batch])` comprehensions closing every sampling
method of the source. -/
def batchOf {σ α : Type} (batch : List (Transition σ α)) : Batch σ α :=
  ⟨batch.map (fun e => e.s), batch.map (fun e => e.a), batch.map (fun e => e.r),
    batch.map (fun e => e.t), batch.map (fun e => e.s2)⟩

/-- Python `int()` applied to a rational: truncation toward zero. -/
def pyInt (q : ℚ) : ℤ :=
  if q < 0 then ⌈q⌉ else ⌊q⌋

/-- Model of the selection performed by `random.sample(pop, k)` (and, on
`List.range n`, by `np.random.choice(n, k, replace=False)`): `k` times, one
stream value picks one element out of the remaining pool, which is then
removed, so a single call never returns the same stored element twice.  The
empty-pool guard is unreachable from call sites that keep `k ≤ pop.length`. -/
def pySample {T : Type} : List T → Nat → Rng → List T × Rng
  | _, 0, g => ([], g)
  | pop, k + 1, g =>
    if h : pop.length = 0 then ([], g)
    else
      (pop.get ⟨g.f g.pos % pop.length, Nat.mod_lt _ (Nat.pos_of_ne_zero h)⟩ ::
          (pySample (pop.eraseIdx (g.f g.pos % pop.length)) k ⟨g.f, g.pos + 1⟩).1,
        (pySample (pop.eraseIdx (g.f g.pos % pop.length)) k ⟨g.f, g.pos + 1⟩).2)

/-- `random.sample(pop, k)` including its argument check: python raises
`ValueError` unless `0 ≤ k ≤ len(pop)`. -/
def pySampleK {T : Type} (pop : List T) (k : ℤ) (g : Rng) : Except String (List T × Rng) :=
  if k < 0 ∨ (pop.length : ℤ) < k then
    .error "ValueError: sample larger than population or is negative"
  else
    .ok (pySample pop k.toNat g)

/-- `np.random.choice(n, k, replace=False)`: `k` distinct indices below `n`,
drawn from numpy's generator; raises unless `0 ≤ k ≤ n`. -/
def npChoice (n : Nat) (k : ℤ) (g : Rng) : Except String (List Nat × Rng) :=
  if k < 0 ∨ (n : ℤ) < k then
    .error "ValueError: cannot take a larger sample than population when replace is False"
  else
    .ok (pySample (List.range n) k.toNat g)

/-- `np.random.choice(n, k, replace=False, p)`: the probability vector `p`
biases only the distribution of the draw, not which index sets are possible
nor the shape of the result; under the stream abstraction (each stream value
encodes the index drawn from the remaining pool) the selection mechanics
coincide with the unweighted case, so the model shares them.  The weight
computation itself (`softmax`) is embedded separately below. -/
def npChoiceWeighted (n : Nat) (k : ℤ) (g : Rng) : Except String (List Nat × Rng) :=
  npChoice n k g

/-- Appending to a `deque` constructed with a `maxlen`: when the queue is
full the oldest element is dropped; with `maxlen = 0` nothing is retained. -/
def dequeAppend {T : Type} (maxlen : Nat) (q : List T) (x : T) : List T :=
  if q.length < maxlen then q ++ [x] else (q ++ [x]).drop (q.length + 1 - maxlen)

/-- State of class `ReplayBuffer` (spec: `UniformBuffer`): one unbounded
`deque` plus the manual element count, bounded by `buffer_size` in `add`. -/
structure ReplayBuffer (σ α : Type) where
  buffer_size : Nat
  count : Nat
  buffer : List (Transition σ α)
deriving DecidableEq

/-- `ReplayBuffer.__init__(buffer_size, random_seed)`: empty queue, zero
count.  The `random.seed` side effect is modelled where whole call sequences
are run (`runUniform` below). -/
def ReplayBuffer.init {σ α : Type} (buffer_size : Nat) : ReplayBuffer σ α :=
  ⟨buffer_size, 0, []⟩

/-- `ReplayBuffer.add`: append while `count < buffer_size`, else
`popleft` then append.  With `buffer_size = 0` the very first `add` takes the
else branch and `popleft` on the empty deque raises `IndexError`. -/
def ReplayBuffer.add {σ α : Type} (b : ReplayBuffer σ α) (e : Transition σ α) :
    Except String (ReplayBuffer σ α) :=
  if b.count < b.buffer_size then
    .ok ⟨b.buffer_size, b.count + 1, b.buffer ++ [e]⟩
  else
    match b.buffer with
    | [] => .error "IndexError: pop from an empty deque"
    | _ :: rest => .ok ⟨b.buffer_size, b.count, rest ++ [e]⟩

/-- `ReplayBuffer.size()`. -/
def ReplayBuffer.size {σ α : Type} (b : ReplayBuffer σ α) : Nat :=
  b.count

/-- `ReplayBuffer.add` folded over a list of transitions. -/
def ReplayBuffer.addAll {σ α : Type} (b : ReplayBuffer σ α) :
    List (Transition σ α) → Except String (ReplayBuffer σ α)
  | [] => .ok b
  | e :: rest =>
    match b.add e with
    | .error msg => .error msg
    | .ok b2 => b2.addAll rest

/-- `ReplayBuffer.sample_batch(batch_size)`: `random.sample` of `count`
elements when `count < batch_size`, else of `batch_size` elements, then
column-wise stacking.  The buffer itself is only read. -/
def ReplayBuffer.sample_batch {σ α : Type} (b : ReplayBuffer σ α) (batch_size : Nat)
    (g : Rng) : Except String (Batch σ α × ReplayBuffer σ α × Rng) :=
  match (if b.count < batch_size then pySampleK b.buffer (b.count : ℤ) g
         else pySampleK b.buffer (batch_size : ℤ) g) with
  | .error msg => .error msg
  | .ok (batch, g2) => .ok (batchOf batch, b, g2)

/-- `ReplayBuffer.last_n_batch(batch_size)`: when `count < batch_size` the
whole deque is stacked; otherwise the source evaluates
`self.buffer[-batch_size:]`, and a python `deque` does not support slice
indexing, so the call raises `TypeError`. -/
def ReplayBuffer.last_n_batch {σ α : Type} (b : ReplayBuffer σ α) (batch_size : Nat) :
    Except String (Batch σ α) :=
  if b.count < batch_size then .ok (batchOf b.buffer)
  else .error "TypeError: sequence index must be integer, not slice"

/-- `ReplayBuffer.clear()`: the source body is `self.deque.clear()`, but the
object has no attribute `deque` (the queue is stored in `self.buffer`; the
name `deque` is only the class imported at module level), so attribute
lookup raises before anything is mutated. -/
def ReplayBuffer.clear {σ α : Type} (b : ReplayBuffer σ α) :
    Except String (ReplayBuffer σ α) :=
  .error "AttributeError: ReplayBuffer object has no attribute deque"

/-- State of class `PrioritizedReplayBuffer` (spec: `StratifiedBuffer`): two
`deque`s with `maxlen = buffer_size`, one per reward sign. -/
structure PrioritizedReplayBuffer (σ α : Type) where
  buffer_size : Nat
  buffer_pos : List (Transition σ α)
  buffer_neg : List (Transition σ α)
deriving DecidableEq

/-- `PrioritizedReplayBuffer.__init__`. -/
def PrioritizedReplayBuffer.init {σ α : Type} (buffer_size : Nat) :
    PrioritizedReplayBuffer σ α :=
  ⟨buffer_size, [], []⟩

/-- `PrioritizedReplayBuffer.add`: transitions with `r <= 0` go to the
negative queue, the rest to the positive one; each bounded deque evicts on
its own. -/
def PrioritizedReplayBuffer.add {σ α : Type} (b : PrioritizedReplayBuffer σ α)
    (e : Transition σ α) : PrioritizedReplayBuffer σ α :=
  if e.r ≤ 0 then
    ⟨b.buffer_size, b.buffer_pos, dequeAppend b.buffer_size b.buffer_neg e⟩
  else
    ⟨b.buffer_size, dequeAppend b.buffer_size b.buffer_pos e, b.buffer_neg⟩

/-- `PrioritizedReplayBuffer.size()`. -/
def PrioritizedReplayBuffer.size {σ α : Type} (b : PrioritizedReplayBuffer σ α) : Nat :=
  b.buffer_pos.length + b.buffer_neg.length

/-- `PrioritizedReplayBuffer.add` folded over a list of transitions. -/
def PrioritizedReplayBuffer.addAll {σ α : Type} (b : PrioritizedReplayBuffer σ α)
    (ts : List (Transition σ α)) : PrioritizedReplayBuffer σ α :=
  ts.foldl PrioritizedReplayBuffer.add b

/-- Target number of positive samples, shared by both stratified classes:
`int(batch_size * p_ratio)` clamped to the positive queue length. -/
def posSampleSize (batch_size : Nat) (pRat : ℚ) (num_pos : Nat) : ℤ :=
  if pyInt (batch_size * pRat) > (num_pos : ℤ) then num_pos else pyInt (batch_size * pRat)

/-- Remaining slots `batch_size - pos_sample_size`, clamped to the negative
queue length (the clamp only caps from above; a negative remainder is kept
and makes the subsequent sampling call raise, exactly as in python). -/
def negSampleSize (batch_size : Nat) (pRat : ℚ) (num_pos num_neg : Nat) : ℤ :=
  if (batch_size : ℤ) - posSampleSize batch_size pRat num_pos > (num_neg : ℤ) then num_neg
  else (batch_size : ℤ) - posSampleSize batch_size pRat num_pos

/-- `PrioritizedReplayBuffer.sample_batch(batch_size, p_ratio=0.25)`: a
uniform draw from each queue (positive first, consuming python's global
generator), concatenated and stacked. -/
def PrioritizedReplayBuffer.sample_batch {σ α : Type} (b : PrioritizedReplayBuffer σ α)
    (batch_size : Nat) (pRat : ℚ) (g : Rng) :
    Except String (Batch σ α × PrioritizedReplayBuffer σ α × Rng) :=
  match pySampleK b.buffer_pos (posSampleSize batch_size pRat b.buffer_pos.length) g with
  | .error msg => .error msg
  | .ok (pos_batch, g1) =>
    match pySampleK b.buffer_neg
        (negSampleSize batch_size pRat b.buffer_pos.length b.buffer_neg.length) g1 with
    | .error msg => .error msg
    | .ok (neg_batch, g2) => .ok (batchOf (pos_batch ++ neg_batch), b, g2)

/-- `PrioritizedReplayBuffer.clear()`: both queues emptied; capacity kept. -/
def PrioritizedReplayBuffer.clear {σ α : Type} (b : PrioritizedReplayBuffer σ α) :
    PrioritizedReplayBuffer σ α :=
  ⟨b.buffer_size, [], []⟩

/-- Module-level `softmax(y)` exactly as the source computes it:
`e = np.exp(np.array(y)); return e / np.sum(e)` — no max-subtraction. -/
noncomputable def softmax (y : List ℝ) : List ℝ :=
  (y.map Real.exp).map (fun x => x / (y.map Real.exp).sum)

/-- Modelled from the spec: the max-stabilized softmax the specification
demands (`w_i = exp(r_i - max_r) / Σ_j exp(r_j - max_r)`), written from the
words of the spec for comparison with the `softmax` of the source. -/
noncomputable def softmaxStable (y : List ℝ) : List ℝ :=
  y.map (fun r => Real.exp (r - y.foldr max (y.headD 0)) /
    (y.map (fun r2 => Real.exp (r2 - y.foldr max (y.headD 0)))).sum)

/-- State of class `PrioritizedReplayBuffer2` (spec:
`WeightedStratifiedBuffer`): identical storage to the other stratified
class. -/
structure PrioritizedReplayBuffer2 (σ α : Type) where
  buffer_size : Nat
  buffer_pos : List (Transition σ α)
  buffer_neg : List (Transition σ α)
deriving DecidableEq

/-- `PrioritizedReplayBuffer2.__init__`. -/
def PrioritizedReplayBuffer2.init {σ α : Type} (buffer_size : Nat) :
    PrioritizedReplayBuffer2 σ α :=
  ⟨buffer_size, [], []⟩

/-- `PrioritizedReplayBuffer2.add`: threshold `r <= 0.5` instead of
`r <= 0`. -/
def PrioritizedReplayBuffer2.add {σ α : Type} (b : PrioritizedReplayBuffer2 σ α)
    (e : Transition σ α) : PrioritizedReplayBuffer2 σ α :=
  if e.r ≤ 0.5 then
    ⟨b.buffer_size, b.buffer_pos, dequeAppend b.buffer_size b.buffer_neg e⟩
  else
    ⟨b.buffer_size, dequeAppend b.buffer_size b.buffer_pos e, b.buffer_neg⟩

/-- `PrioritizedReplayBuffer2.size()`. -/
def PrioritizedReplayBuffer2.size {σ α : Type} (b : PrioritizedReplayBuffer2 σ α) : Nat :=
  b.buffer_pos.length + b.buffer_neg.length

/-- `PrioritizedReplayBuffer2.add` folded over a list of transitions. -/
def PrioritizedReplayBuffer2.addAll {σ α : Type} (b : PrioritizedReplayBuffer2 σ α)
    (ts : List (Transition σ α)) : PrioritizedReplayBuffer2 σ α :=
  ts.foldl PrioritizedReplayBuffer2.add b

/-- `PrioritizedReplayBuffer2.sample_batch(batch_size, p_ratio=0.25)`: when
the positive target is non-zero, the positive queue is sampled by
`np.random.choice(num_pos, pos_sample_size, False, softmax(rewards))`,
otherwise skipped; the negative queue is always sampled by
`np.random.choice(num_neg, neg_sample_size, False)`.  Both draws consume
NUMPY's global generator — never the python generator the constructor
seeded.  The softmax weight vector computed by the source biases only the
distribution of the positive draw and is abstracted into the stream (see
`npChoiceWeighted`); the weight computation itself is the `softmax`
definition above.  The resulting index arrays select rows of the stored
queues, concatenated positive first and stacked. -/
def PrioritizedReplayBuffer2.sample_batch {σ α : Type} (b : PrioritizedReplayBuffer2 σ α)
    (batch_size : Nat) (pRat : ℚ) (g : Rng) :
    Except String (Batch σ α × PrioritizedReplayBuffer2 σ α × Rng) :=
  match (if posSampleSize batch_size pRat b.buffer_pos.length ≠ 0 then
           npChoiceWeighted b.buffer_pos.length
             (posSampleSize batch_size pRat b.buffer_pos.length) g
         else .ok ([], g)) with
  | .error msg => .error msg
  | .ok (pos_idx, g1) =>
    match npChoice b.buffer_neg.length
        (negSampleSize batch_size pRat b.buffer_pos.length b.buffer_neg.length) g1 with
    | .error msg => .error msg
    | .ok (neg_idx, g2) =>
      .ok (batchOf (pos_idx.filterMap (fun i => b.buffer_pos[i]?) ++
             neg_idx.filterMap (fun i => b.buffer_neg[i]?)), b, g2)

/-- `PrioritizedReplayBuffer2.clear()`. -/
def PrioritizedReplayBuffer2.clear {σ α : Type} (b : PrioritizedReplayBuffer2 σ α) :
    PrioritizedReplayBuffer2 σ α :=
  ⟨b.buffer_size, [], []⟩

/-- One call of a training loop against a buffer: either `add` with a
transition or `sample_batch` with a batch size and a ratio (the ratio is
ignored by the uniform buffer, whose `sample_batch` takes no such
argument). -/
inductive BufCall (σ α : Type) where
  | add (e : Transition σ α)
  | sample (batch_size : Nat) (pRat : ℚ)

/-- Interpreter for a call sequence against `ReplayBuffer`, collecting the
sampled batches; a raised exception aborts the run.  Only python's global
generator is threaded: this class never draws from numpy. -/
def runUniformGo {σ α : Type} :
    ReplayBuffer σ α → Rng → List (BufCall σ α) → Except String (List (Batch σ α))
  | _, _, [] => .ok []
  | b, g, .add e :: rest =>
    match b.add e with
    | .error msg => .error msg
    | .ok b2 => runUniformGo b2 g rest
  | b, g, .sample k _ :: rest =>
    match b.sample_batch k g with
    | .error msg => .error msg
    | .ok (out, b2, g2) =>
      match runUniformGo b2 g2 rest with
      | .error msg => .error msg
      | .ok outs => .ok (out :: outs)

/-- A whole run against a fresh `ReplayBuffer(buffer_size, seed)` starting
from ambient interpreter state `g0`: the constructor replaces the python
stream by the seeded one (`mt seed`), numpy's stream is untouched and this
class never reads it. -/
def runUniform {σ α : Type} (mt : Nat → Nat → Nat) (buffer_size seed : Nat) (g0 : Globals)
    (calls : List (BufCall σ α)) : Except String (List (Batch σ α)) :=
  runUniformGo (ReplayBuffer.init buffer_size) ⟨mt seed, 0⟩ calls

/-- Interpreter for a call sequence against `PrioritizedReplayBuffer`;
sampling consumes python's global generator. -/
def runStratifiedGo {σ α : Type} :
    PrioritizedReplayBuffer σ α → Rng → List (BufCall σ α) →
      Except String (List (Batch σ α))
  | _, _, [] => .ok []
  | b, g, .add e :: rest => runStratifiedGo (b.add e) g rest
  | b, g, .sample k p :: rest =>
    match b.sample_batch k p g with
    | .error msg => .error msg
    | .ok (out, b2, g2) =>
      match runStratifiedGo b2 g2 rest with
      | .error msg => .error msg
      | .ok outs => .ok (out :: outs)

/-- A whole run against a fresh `PrioritizedReplayBuffer(buffer_size, seed)`
from ambient state `g0`. -/
def runStratified {σ α : Type} (mt : Nat → Nat → Nat) (buffer_size seed : Nat)
    (g0 : Globals) (calls : List (BufCall σ α)) : Except String (List (Batch σ α)) :=
  runStratifiedGo (PrioritizedReplayBuffer.init buffer_size) ⟨mt seed, 0⟩ calls

/-- Interpreter for a call sequence against `PrioritizedReplayBuffer2`;
sampling consumes NUMPY's global generator. -/
def runWeightedGo {σ α : Type} :
    PrioritizedReplayBuffer2 σ α → Rng → List (BufCall σ α) →
      Except String (List (Batch σ α))
  | _, _, [] => .ok []
  | b, g, .add e :: rest => runWeightedGo (b.add e) g rest
  | b, g, .sample k p :: rest =>
    match b.sample_batch k p g with
    | .error msg => .error msg
    | .ok (out, b2, g2) =>
      match runWeightedGo b2 g2 rest with
      | .error msg => .error msg
      | .ok outs => .ok (out :: outs)

/-- A whole run against a fresh `PrioritizedReplayBuffer2(buffer_size, seed)`
from ambient state `g0`: the constructor reseeds python's generator, but
every draw of this class reads numpy's generator, whose ambient state `g0.np`
is never reset by any code in the source. -/
def runWeighted {σ α : Type} (mt : Nat → Nat → Nat) (buffer_size seed : Nat) (g0 : Globals)
    (calls : List (BufCall σ α)) : Except String (List (Batch σ α)) :=
  runWeightedGo (PrioritizedReplayBuffer2.init buffer_size) g0.np calls

/-- Picking the element at a valid index and erasing it is a permutation of
the original list. -/
theorem get_cons_eraseIdx_perm {T : Type} :
    ∀ (l : List T) (i : Nat) (h : i < l.length),
      List.Perm (l.get ⟨i, h⟩ :: l.eraseIdx i) l
  | _ :: _, 0, _ => by simp [List.eraseIdx]
  | a :: l, i + 1, h => by
    have h2 : i < l.length := by simpa using Nat.lt_of_succ_lt_succ h
    have ih := get_cons_eraseIdx_perm l i h2
    simpa [List.eraseIdx] using
      (List.Perm.swap a (l.get ⟨i, h2⟩) (l.eraseIdx i)).trans (ih.cons a)

/-- The selection of `pySample` has length `min k pop.length`. -/
theorem pySample_length {T : Type} :
    ∀ (k : Nat) (pop : List T) (g : Rng), (pySample pop k g).1.length = min k pop.length
  | 0, pop, _ => by simp [pySample]
  | k + 1, pop, g => by
    by_cases h : pop.length = 0
    · simp [pySample, h]
    · have hlt : g.f g.pos % pop.length < pop.length := Nat.mod_lt _ (Nat.pos_of_ne_zero h)
      have hE : (pop.eraseIdx (g.f g.pos % pop.length)).length = pop.length - 1 := by
        simp [List.length_eraseIdx, hlt]
      have ih := pySample_length k (pop.eraseIdx (g.f g.pos % pop.length)) ⟨g.f, g.pos + 1⟩
      simp only [pySample, dif_neg h, List.length_cons, ih, hE]
      omega

/-- The selection of `pySample` is a sub-permutation of the pool: it draws
only stored elements, never one position twice. -/
theorem pySample_subperm {T : Type} :
    ∀ (k : Nat) (pop : List T) (g : Rng), List.Subperm (pySample pop k g).1 pop
  | 0, pop, _ => by
    simpa [pySample] using List.nil_subperm (l := pop)
  | k + 1, pop, g => by
    by_cases h : pop.length = 0
    · simpa [pySample, h] using List.nil_subperm (l := pop)
    · have hlt : g.f g.pos % pop.length < pop.length := Nat.mod_lt _ (Nat.pos_of_ne_zero h)
      have ih := pySample_subperm k (pop.eraseIdx (g.f g.pos % pop.length)) ⟨g.f, g.pos + 1⟩
      simp only [pySample, dif_neg h]
      exact ((List.subperm_cons _).mpr ih).trans
        (get_cons_eraseIdx_perm pop _ hlt).subperm

/-- Bounded-deque append never exceeds the bound. -/
theorem dequeAppend_length_le {T : Type} (maxlen : Nat) (q : List T) (x : T)
    (h : q.length ≤ maxlen) : (dequeAppend maxlen q x).length ≤ maxlen := by
  unfold dequeAppend
  split <;> simp <;> omega

/-- Closed form of a fold of `ReplayBuffer.add` over a well-formed state
with positive capacity: no exception, the count saturates at the capacity
and the queue keeps the suffix of appended history that fits. -/
theorem ReplayBuffer.addAll_char {σ α : Type} (ts : List (Transition σ α)) :
    ∀ (bs c : Nat) (buf : List (Transition σ α)), 0 < bs → c = buf.length → c ≤ bs →
      ReplayBuffer.addAll ⟨bs, c, buf⟩ ts =
        .ok ⟨bs, min (c + ts.length) bs, (buf ++ ts).drop (c + ts.length - bs)⟩ := by
  induction ts with
  | nil =>
    intro bs c buf hpos hcl hle
    simp [ReplayBuffer.addAll]
    exact ⟨hle, by simp [show c - bs = 0 from by omega]⟩
  | cons e rest ih =>
    intro bs c buf hpos hcl hle
    by_cases hc : c < bs
    · have hstep : ReplayBuffer.add ⟨bs, c, buf⟩ e = .ok ⟨bs, c + 1, buf ++ [e]⟩ := by
        simp [ReplayBuffer.add, hc]
      have hrec := ih bs (c + 1) (buf ++ [e]) hpos (by simp [hcl]) (by omega)
      simp only [ReplayBuffer.addAll, hstep, hrec]
      have h1 : c + 1 + rest.length = c + (rest.length + 1) := by omega
      simp [List.append_assoc, h1]
    · have hceq : c = bs := by omega
      cases buf with
      | nil => simp at hcl; omega
      | cons a tail =>
        have hstep : ReplayBuffer.add ⟨bs, c, a :: tail⟩ e = .ok ⟨bs, c, tail ++ [e]⟩ := by
          simp [ReplayBuffer.add, hc]
        have htl : c = (tail ++ [e]).length := by
          simp at hcl ⊢
          omega
        have hrec := ih bs c (tail ++ [e]) hpos htl hle
        simp only [ReplayBuffer.addAll, hstep, hrec]
        have h1 : min (c + rest.length) bs = bs := by omega
        have h2 : min (c + (rest.length + 1)) bs = bs := by omega
        have h3 : c + (rest.length + 1) - bs = (c + rest.length - bs) + 1 := by omega
        simp [h1, h2, h3, List.append_assoc]

/-- A single `PrioritizedReplayBuffer.add` keeps both queues within the
capacity and leaves the capacity itself unchanged. -/
theorem PrioritizedReplayBuffer.add_bounds {σ α : Type} (b : PrioritizedReplayBuffer σ α)
    (e : Transition σ α) (h1 : b.buffer_pos.length ≤ b.buffer_size)
    (h2 : b.buffer_neg.length ≤ b.buffer_size) :
    (b.add e).buffer_pos.length ≤ b.buffer_size ∧
    (b.add e).buffer_neg.length ≤ b.buffer_size ∧ (b.add e).buffer_size = b.buffer_size := by
  unfold PrioritizedReplayBuffer.add
  split
  · exact ⟨h1, dequeAppend_length_le _ _ _ h2, rfl⟩
  · exact ⟨dequeAppend_length_le _ _ _ h1, h2, rfl⟩

/-- Folding `PrioritizedReplayBuffer.add` preserves the per-queue capacity
bound. -/
theorem PrioritizedReplayBuffer.addAll_bounds {σ α : Type} (ts : List (Transition σ α)) :
    ∀ (b : PrioritizedReplayBuffer σ α), b.buffer_pos.length ≤ b.buffer_size →
      b.buffer_neg.length ≤ b.buffer_size →
      (b.addAll ts).buffer_pos.length ≤ b.buffer_size ∧
      (b.addAll ts).buffer_neg.length ≤ b.buffer_size ∧
      (b.addAll ts).buffer_size = b.buffer_size := by
  induction ts with
  | nil => intro b h1 h2; exact ⟨h1, h2, rfl⟩
  | cons e rest ih =>
    intro b h1 h2
    have hb := PrioritizedReplayBuffer.add_bounds b e h1 h2
    have hr := ih (b.add e) (by rw [hb.2.2]; exact hb.1) (by rw [hb.2.2]; exact hb.2.1)
    have hstep : b.addAll (e :: rest) = (b.add e).addAll rest := by
      simp [PrioritizedReplayBuffer.addAll]
    rw [hstep]
    exact ⟨by rw [← hb.2.2]; exact hr.1, by rw [← hb.2.2]; exact hr.2.1, by rw [hr.2.2, hb.2.2]⟩

/-- A single `PrioritizedReplayBuffer2.add` keeps both queues within the
capacity and leaves the capacity itself unchanged. -/
theorem PrioritizedReplayBuffer2.add_bounds2 {σ α : Type} (b : PrioritizedReplayBuffer2 σ α)
    (e : Transition σ α) (h1 : b.buffer_pos.length ≤ b.buffer_size)
    (h2 : b.buffer_neg.length ≤ b.buffer_size) :
    (b.add e).buffer_pos.length ≤ b.buffer_size ∧
    (b.add e).buffer_neg.length ≤ b.buffer_size ∧ (b.add e).buffer_size = b.buffer_size := by
  unfold PrioritizedReplayBuffer2.add
  split
  · exact ⟨h1, dequeAppend_length_le _ _ _ h2, rfl⟩
  · exact ⟨dequeAppend_length_le _ _ _ h1, h2, rfl⟩

/-- Folding `PrioritizedReplayBuffer2.add` preserves the per-queue capacity
bound. -/
theorem PrioritizedReplayBuffer2.addAll_bounds2 {σ α : Type} (ts : List (Transition σ α)) :
    ∀ (b : PrioritizedReplayBuffer2 σ α), b.buffer_pos.length ≤ b.buffer_size →
      b.buffer_neg.length ≤ b.buffer_size →
      (b.addAll ts).buffer_pos.length ≤ b.buffer_size ∧
      (b.addAll ts).buffer_neg.length ≤ b.buffer_size ∧
      (b.addAll ts).buffer_size = b.buffer_size := by
  induction ts with
  | nil => intro b h1 h2; exact ⟨h1, h2, rfl⟩
  | cons e rest ih =>
    intro b h1 h2
    have hb := PrioritizedReplayBuffer2.add_bounds2 b e h1 h2
    have hr := ih (b.add e) (by rw [hb.2.2]; exact hb.1) (by rw [hb.2.2]; exact hb.2.1)
    have hstep : b.addAll (e :: rest) = (b.add e).addAll rest := by
      simp [PrioritizedReplayBuffer2.addAll]
    rw [hstep]
    exact ⟨by rw [← hb.2.2]; exact hr.1, by rw [← hb.2.2]; exact hr.2.1, by rw [hr.2.2, hb.2.2]⟩

/-- The value of the unstabilized softmax is invariant under shifting every
input by a constant: in exact real arithmetic the max-subtracted form
computes the same weights. -/
theorem softmax_shift (y : List ℝ) (M : ℝ) :
    softmax y = y.map (fun r => Real.exp (r - M) / (y.map (fun r2 => Real.exp (r2 - M))).sum) := by
  have hfun : (fun r2 : ℝ => Real.exp (r2 - M)) = fun r2 => Real.exp r2 * (Real.exp M)⁻¹ := by
    funext r2
    rw [Real.exp_sub, div_eq_mul_inv]
  have hsum : (y.map (fun r2 => Real.exp (r2 - M))).sum =
      (y.map Real.exp).sum * (Real.exp M)⁻¹ := by
    rw [hfun]
    exact List.sum_map_mul_right y Real.exp (Real.exp M)⁻¹
  unfold softmax
  rw [List.map_map, hsum]
  refine List.map_congr_left (fun r _ => ?_)
  show Real.exp r / (y.map Real.exp).sum =
    Real.exp (r - M) / ((y.map Real.exp).sum * (Real.exp M)⁻¹)
  rw [Real.exp_sub, div_eq_mul_inv (Real.exp r) (Real.exp M)]
  exact (mul_div_mul_right (Real.exp r) (y.map Real.exp).sum
    (inv_ne_zero (Real.exp_ne_zero M))).symm

/-- Normalised sizes of the positive draw: with a non-negative ratio the
python truncation is the floor, and the clamp is a minimum. -/
theorem posSampleSize_eq (batch_size : Nat) (pRat : ℚ) (num_pos : Nat) (h0 : 0 ≤ pRat) :
    posSampleSize batch_size pRat num_pos = min ⌊(batch_size : ℚ) * pRat⌋ (num_pos : ℤ) := by
  unfold posSampleSize pyInt
  rw [if_neg (not_lt.mpr (mul_nonneg (by positivity) h0))]
  split <;> omega

attribute [local semireducible] Rat.mul Rat.add Rat.sub Rat.inv Rat.ofScientific

/-- Claim C2: the source `softmax` computes `exp(r_i)/Σ_j exp(r_j)` with no
max-subtraction; in exact real arithmetic that value coincides everywhere
with the max-stabilized form the claim describes, so on the positive-partition
rewards `[1.0, 2.0, 3.0]` the weights equal
`[exp(-2), exp(-1), 1] / (exp(-2)+exp(-1)+1)` and sum to `1`.  The equality
of the two forms holds only in exact arithmetic: the computation the source
performs exponentiates the raw rewards, which is exactly the unstabilized
defect the specification orders corrected. -/
theorem claim_C2_softmax_values :
    (∀ y : List ℝ, softmax y = softmaxStable y) ∧
    softmax [1, 2, 3] =
      [Real.exp (-2) / (Real.exp (-2) + Real.exp (-1) + 1),
       Real.exp (-1) / (Real.exp (-2) + Real.exp (-1) + 1),
       1 / (Real.exp (-2) + Real.exp (-1) + 1)] ∧
    (softmax [1, 2, 3]).sum = 1 := by
  have hstable : ∀ y : List ℝ, softmax y = softmaxStable y := by
    intro y
    unfold softmaxStable
    exact softmax_shift y (y.foldr max (y.headD 0))
  have hL : softmax [1, 2, 3] =
      [Real.exp (-2) / (Real.exp (-2) + Real.exp (-1) + 1),
       Real.exp (-1) / (Real.exp (-2) + Real.exp (-1) + 1),
       1 / (Real.exp (-2) + Real.exp (-1) + 1)] := by
    rw [softmax_shift [1, 2, 3] 3]
    have e1 : (1:ℝ) - 3 = -2 := by norm_num
    have e2 : (2:ℝ) - 3 = -1 := by norm_num
    have e3 : (3:ℝ) - 3 = 0 := by norm_num
    simp only [List.map_cons, List.map_nil, List.sum_cons, List.sum_nil, e1, e2, e3,
      Real.exp_zero, add_zero]
    ring_nf
  refine ⟨hstable, hL, ?_⟩
  rw [hL]
  have hD : Real.exp (-2) + Real.exp (-1) + 1 ≠ 0 := by positivity
  simp only [List.sum_cons, List.sum_nil, add_zero]
  field_simp
  ring

/-- Claim C4 evaluation at the failing input: on `UniformBuffer` constructed
with capacity `0`, the very first `add` raises `IndexError` (the eviction
branch calls `popleft` on the empty deque) instead of succeeding as the
claim requires. -/
theorem claim_C4_capacity_zero_add_raises :
    ReplayBuffer.add (ReplayBuffer.init 0 : ReplayBuffer Nat Nat) ⟨0, 0, 0, false, 0⟩ =
      .error "IndexError: pop from an empty deque" := rfl

/-- Claim C5 evaluation at the failing input: `last_n_batch(2)` on a
`UniformBuffer` holding three transitions raises `TypeError`, because the
source slices the `deque` (`self.buffer[-batch_size:]`) and a python `deque`
does not support slice indexing; the claim says the two most recent
transitions are returned. -/
theorem claim_C5_last_n_batch_raises :
    ReplayBuffer.last_n_batch
        (⟨5, 3, [⟨0, 0, 0, false, 0⟩, ⟨1, 1, 0, false, 1⟩, ⟨2, 2, 0, false, 2⟩]⟩ :
          ReplayBuffer Nat Nat) 2 =
      .error "TypeError: sequence index must be integer, not slice" := rfl

/-- Claim C6 evaluation: `clear()` on the two stratified classes does empty
both queues, zero the size and keep the capacity, but `UniformBuffer.clear()`
raises `AttributeError` — its body refers to `self.deque`, a field that does
not exist — instead of emptying the queue as the claim requires. -/
theorem claim_C6_clear :
    (∀ (b : PrioritizedReplayBuffer Nat Nat),
        b.clear.buffer_pos = [] ∧ b.clear.buffer_neg = [] ∧ b.clear.size = 0 ∧
        b.clear.buffer_size = b.buffer_size) ∧
    (∀ (b : PrioritizedReplayBuffer2 Nat Nat),
        b.clear.buffer_pos = [] ∧ b.clear.buffer_neg = [] ∧ b.clear.size = 0 ∧
        b.clear.buffer_size = b.buffer_size) ∧
    ReplayBuffer.clear (⟨10, 1, [⟨0, 0, 0, false, 0⟩]⟩ : ReplayBuffer Nat Nat) =
      .error "AttributeError: ReplayBuffer object has no attribute deque" :=
  ⟨fun _ => ⟨rfl, rfl, rfl, rfl⟩, fun _ => ⟨rfl, rfl, rfl, rfl⟩, rfl⟩

/-- Claim C1: on every well-formed `UniformBuffer` state (stored count equal
to the queue length, as every reachable state satisfies) and every batch
size, `sample_batch` succeeds and stacks a selection `sel` of stored
transitions drawn without replacement (`sel` is a sub-permutation of the
queue, so no stored transition is used twice) into five parallel sequences,
with `sel.length = min batch_size (size())`; when `batch_size > size()` the
selection is a permutation of the whole queue (all stored transitions,
silently), and on an empty buffer all five sequences are empty. -/
theorem claim_C1_uniform_sample_batch {σ α : Type} (b : ReplayBuffer σ α)
    (batch_size : Nat) (g : Rng) (hwf : b.count = b.buffer.length) :
    ∃ (sel : List (Transition σ α)) (g2 : Rng),
      List.Subperm sel b.buffer ∧ sel.length = min batch_size b.size ∧
      (b.size < batch_size → sel.Perm b.buffer) ∧
      b.sample_batch batch_size g = .ok (batchOf sel, b, g2) := by
  simp only [ReplayBuffer.size]
  by_cases hlt : b.count < batch_size
  · refine ⟨(pySample b.buffer b.count g).1, (pySample b.buffer b.count g).2,
      pySample_subperm _ _ _, ?_, ?_, ?_⟩
    · rw [pySample_length]; omega
    · intro _
      refine (pySample_subperm _ _ _).perm_of_length_le ?_
      rw [pySample_length]; omega
    · unfold ReplayBuffer.sample_batch pySampleK
      rw [if_pos hlt, if_neg (by omega)]
      rfl
  · refine ⟨(pySample b.buffer batch_size g).1, (pySample b.buffer batch_size g).2,
      pySample_subperm _ _ _, ?_, ?_, ?_⟩
    · rw [pySample_length]; omega
    · intro hcon; omega
    · unfold ReplayBuffer.sample_batch pySampleK
      rw [if_neg hlt, if_neg (by omega)]
      rfl

/-- Witness for C1: the empty buffer of capacity 3 sampled with batch size 5
(the empty-buffer scenario of the spec). -/
theorem claim_C1_uniform_sample_batch_witness :
    ((ReplayBuffer.init 3 : ReplayBuffer Nat Nat).count =
        (ReplayBuffer.init 3 : ReplayBuffer Nat Nat).buffer.length) ∧
    (∃ (sel : List (Transition Nat Nat)) (g2 : Rng),
      List.Subperm sel (ReplayBuffer.init 3 : ReplayBuffer Nat Nat).buffer ∧
      sel.length = min 5 (ReplayBuffer.init 3 : ReplayBuffer Nat Nat).size ∧
      ((ReplayBuffer.init 3 : ReplayBuffer Nat Nat).size < 5 →
        sel.Perm (ReplayBuffer.init 3 : ReplayBuffer Nat Nat).buffer) ∧
      (ReplayBuffer.init 3 : ReplayBuffer Nat Nat).sample_batch 5 ⟨fun _ => 0, 0⟩ =
        .ok (batchOf sel, ReplayBuffer.init 3, g2)) :=
  ⟨rfl, claim_C1_uniform_sample_batch (ReplayBuffer.init 3) 5 ⟨fun _ => 0, 0⟩ rfl⟩

/-- Claim C7: for every `StratifiedBuffer` state, batch size and ratio in
`[0, 1]`, `sample_batch` draws exactly `min(floor(batch_size * p_ratio),
len(pos))` transitions from the positive queue and exactly `min(batch_size -
that positive count, len(neg))` from the negative queue, both without
replacement, and returns their concatenation positive-first. -/
theorem claim_C7_stratified_ratio {σ α : Type} (b : PrioritizedReplayBuffer σ α)
    (batch_size : Nat) (pRat : ℚ) (g : Rng) (h0 : 0 ≤ pRat) (h1 : pRat ≤ 1) :
    ∃ (posB negB : List (Transition σ α)) (g2 : Rng),
      List.Subperm posB b.buffer_pos ∧ List.Subperm negB b.buffer_neg ∧
      posB.length = min ⌊(batch_size : ℚ) * pRat⌋.toNat b.buffer_pos.length ∧
      negB.length = min (batch_size - posB.length) b.buffer_neg.length ∧
      b.sample_batch batch_size pRat g = .ok (batchOf (posB ++ negB), b, g2) := by
  have hfl0 : 0 ≤ ⌊(batch_size : ℚ) * pRat⌋ :=
    Int.floor_nonneg.mpr (mul_nonneg (by positivity) h0)
  have hflk : ⌊(batch_size : ℚ) * pRat⌋ ≤ (batch_size : ℤ) := by
    have hle : (batch_size : ℚ) * pRat ≤ ((batch_size : ℤ) : ℚ) := by
      push_cast
      exact mul_le_of_le_one_right (by positivity) h1
    simpa using Int.floor_mono hle
  have hP := posSampleSize_eq batch_size pRat b.buffer_pos.length h0
  have hN : negSampleSize batch_size pRat b.buffer_pos.length b.buffer_neg.length =
      min ((batch_size : ℤ) - posSampleSize batch_size pRat b.buffer_pos.length)
        (b.buffer_neg.length : ℤ) := by
    unfold negSampleSize
    split <;> omega
  have hok1 : pySampleK b.buffer_pos (posSampleSize batch_size pRat b.buffer_pos.length) g =
      .ok (pySample b.buffer_pos
        (posSampleSize batch_size pRat b.buffer_pos.length).toNat g) := by
    unfold pySampleK
    rw [if_neg (by omega)]
  have hok2 : pySampleK b.buffer_neg
      (negSampleSize batch_size pRat b.buffer_pos.length b.buffer_neg.length)
      (pySample b.buffer_pos (posSampleSize batch_size pRat b.buffer_pos.length).toNat g).2 =
      .ok (pySample b.buffer_neg
        (negSampleSize batch_size pRat b.buffer_pos.length b.buffer_neg.length).toNat
        (pySample b.buffer_pos
          (posSampleSize batch_size pRat b.buffer_pos.length).toNat g).2) := by
    unfold pySampleK
    rw [if_neg (by omega)]
  refine ⟨(pySample b.buffer_pos (posSampleSize batch_size pRat b.buffer_pos.length).toNat g).1,
    (pySample b.buffer_neg
      (negSampleSize batch_size pRat b.buffer_pos.length b.buffer_neg.length).toNat
      (pySample b.buffer_pos (posSampleSize batch_size pRat b.buffer_pos.length).toNat g).2).1,
    (pySample b.buffer_neg
      (negSampleSize batch_size pRat b.buffer_pos.length b.buffer_neg.length).toNat
      (pySample b.buffer_pos (posSampleSize batch_size pRat b.buffer_pos.length).toNat g).2).2,
    pySample_subperm _ _ _, pySample_subperm _ _ _, ?_, ?_, ?_⟩
  · rw [pySample_length]; omega
  · rw [pySample_length, pySample_length]; omega
  · unfold PrioritizedReplayBuffer.sample_batch
    rw [hok1]
    dsimp only
    rw [hok2]

/-- Claim C8: from a fresh buffer of positive capacity, after any sequence
of `add` calls the uniform buffer stores at most `capacity` transitions
(and `add` never raises), while each partition of the two stratified buffers
stores at most `capacity`, so their total size never exceeds
`2 * capacity`. -/
theorem claim_C8_capacity_invariant {σ α : Type} (cap : Nat) (ts : List (Transition σ α))
    (hpos : 0 < cap) :
    (∃ b2 : ReplayBuffer σ α, (ReplayBuffer.init cap).addAll ts = .ok b2 ∧
        b2.size ≤ cap ∧ b2.buffer.length ≤ cap) ∧
    ((PrioritizedReplayBuffer.init cap : PrioritizedReplayBuffer σ α).addAll
        ts).buffer_pos.length ≤ cap ∧
    ((PrioritizedReplayBuffer.init cap : PrioritizedReplayBuffer σ α).addAll
        ts).buffer_neg.length ≤ cap ∧
    ((PrioritizedReplayBuffer.init cap : PrioritizedReplayBuffer σ α).addAll
        ts).size ≤ 2 * cap ∧
    ((PrioritizedReplayBuffer2.init cap : PrioritizedReplayBuffer2 σ α).addAll
        ts).buffer_pos.length ≤ cap ∧
    ((PrioritizedReplayBuffer2.init cap : PrioritizedReplayBuffer2 σ α).addAll
        ts).buffer_neg.length ≤ cap ∧
    ((PrioritizedReplayBuffer2.init cap : PrioritizedReplayBuffer2 σ α).addAll
        ts).size ≤ 2 * cap := by
  have hu := ReplayBuffer.addAll_char ts cap 0 [] hpos rfl (by omega)
  have hs := PrioritizedReplayBuffer.addAll_bounds ts (PrioritizedReplayBuffer.init cap)
    (by simp [PrioritizedReplayBuffer.init]) (by simp [PrioritizedReplayBuffer.init])
  have hw := PrioritizedReplayBuffer2.addAll_bounds2 ts (PrioritizedReplayBuffer2.init cap)
    (by simp [PrioritizedReplayBuffer2.init]) (by simp [PrioritizedReplayBuffer2.init])
  have hs1 : ((PrioritizedReplayBuffer.init cap : PrioritizedReplayBuffer σ α).addAll
      ts).buffer_pos.length ≤ cap := hs.1
  have hs2 : ((PrioritizedReplayBuffer.init cap : PrioritizedReplayBuffer σ α).addAll
      ts).buffer_neg.length ≤ cap := hs.2.1
  have hw1 : ((PrioritizedReplayBuffer2.init cap : PrioritizedReplayBuffer2 σ α).addAll
      ts).buffer_pos.length ≤ cap := hw.1
  have hw2 : ((PrioritizedReplayBuffer2.init cap : PrioritizedReplayBuffer2 σ α).addAll
      ts).buffer_neg.length ≤ cap := hw.2.1
  refine ⟨⟨_, hu, ?_, ?_⟩, hs1, hs2, ?_, hw1, hw2, ?_⟩
  · simp only [ReplayBuffer.size]
    omega
  · simp only [List.nil_append, List.length_drop]
    omega
  · unfold PrioritizedReplayBuffer.size
    omega
  · unfold PrioritizedReplayBuffer2.size
    omega

/-- Transitions used by the concrete capacity and eviction scenarios: one
positive-reward, one zero-reward, one positive-reward record. -/
def demoTransitions : List (Transition Nat Nat) :=
  [⟨0, 0, 1, false, 0⟩, ⟨1, 1, 0, false, 1⟩, ⟨2, 2, 1, false, 2⟩]

/-- Witness for C8: capacity 2 and three adds. -/
theorem claim_C8_capacity_invariant_witness :
    0 < 2 ∧
    ((∃ b2 : ReplayBuffer Nat Nat, (ReplayBuffer.init 2).addAll demoTransitions = .ok b2 ∧
        b2.size ≤ 2 ∧ b2.buffer.length ≤ 2) ∧
      ((PrioritizedReplayBuffer.init 2 : PrioritizedReplayBuffer Nat Nat).addAll
          demoTransitions).buffer_pos.length ≤ 2 ∧
      ((PrioritizedReplayBuffer.init 2 : PrioritizedReplayBuffer Nat Nat).addAll
          demoTransitions).buffer_neg.length ≤ 2 ∧
      ((PrioritizedReplayBuffer.init 2 : PrioritizedReplayBuffer Nat Nat).addAll
          demoTransitions).size ≤ 2 * 2 ∧
      ((PrioritizedReplayBuffer2.init 2 : PrioritizedReplayBuffer2 Nat Nat).addAll
          demoTransitions).buffer_pos.length ≤ 2 ∧
      ((PrioritizedReplayBuffer2.init 2 : PrioritizedReplayBuffer2 Nat Nat).addAll
          demoTransitions).buffer_neg.length ≤ 2 ∧
      ((PrioritizedReplayBuffer2.init 2 : PrioritizedReplayBuffer2 Nat Nat).addAll
          demoTransitions).size ≤ 2 * 2) :=
  ⟨by decide, claim_C8_capacity_invariant 2 demoTransitions (by decide)⟩

/-- Claim C9: adding `capacity + 1` transitions to a fresh `UniformBuffer`
of positive capacity leaves exactly the `capacity` most recent ones in their
original relative order (the stored queue equals `ts.drop 1`), and the
first-added transition is no longer contained whenever it does not also
occur among the later additions. -/
theorem claim_C9_fifo_eviction {σ α : Type} (cap : Nat) (ts : List (Transition σ α))
    (hpos : 0 < cap) (hlen : ts.length = cap + 1) :
    (ReplayBuffer.init cap).addAll ts = .ok ⟨cap, cap, ts.drop 1⟩ ∧
    (∀ e, ts.head? = some e → e ∉ ts.drop 1 →
      ∀ b2, (ReplayBuffer.init cap).addAll ts = .ok b2 → e ∉ b2.buffer) := by
  have h := ReplayBuffer.addAll_char ts cap 0 [] hpos rfl (by omega)
  have h1 : min (0 + ts.length) cap = cap := by omega
  have h2 : 0 + ts.length - cap = 1 := by omega
  rw [h1, h2] at h
  simp only [List.nil_append] at h
  refine ⟨h, ?_⟩
  intro e _ hni b2 hb2
  have heq : (Except.ok (⟨cap, cap, ts.drop 1⟩ : ReplayBuffer σ α) :
      Except String (ReplayBuffer σ α)) = .ok b2 := h.symm.trans hb2
  have hrec : (⟨cap, cap, ts.drop 1⟩ : ReplayBuffer σ α) = b2 := by
    injection heq
  rw [← hrec]
  simpa using hni

/-- Witness for C9: capacity 2 and the three demo transitions; after the
third add the first transition is evicted and `[t2, t3]` remain in order. -/
theorem claim_C9_fifo_eviction_witness :
    0 < 2 ∧ demoTransitions.length = 2 + 1 ∧
    ((ReplayBuffer.init 2).addAll demoTransitions = .ok ⟨2, 2, demoTransitions.drop 1⟩ ∧
      (∀ e, demoTransitions.head? = some e → e ∉ demoTransitions.drop 1 →
        ∀ b2, (ReplayBuffer.init 2).addAll demoTransitions = .ok b2 → e ∉ b2.buffer)) :=
  ⟨by decide, by decide, claim_C9_fifo_eviction 2 demoTransitions (by decide) (by decide)⟩

/-- Claim C10: `sample_batch` of each of the three buffer classes is
read-only on the buffer: whenever the call returns normally, the returned
buffer state is exactly the input state — same stored queues, same order,
same capacity, hence same `size()`. -/
theorem claim_C10_sample_batch_frame :
    (∀ (σ α : Type) (b : ReplayBuffer σ α) (batch_size : Nat) (g : Rng) (out : Batch σ α)
        (b2 : ReplayBuffer σ α) (g2 : Rng),
        b.sample_batch batch_size g = .ok (out, b2, g2) → b2 = b) ∧
    (∀ (σ α : Type) (b : PrioritizedReplayBuffer σ α) (batch_size : Nat) (pRat : ℚ) (g : Rng)
        (out : Batch σ α) (b2 : PrioritizedReplayBuffer σ α) (g2 : Rng),
        b.sample_batch batch_size pRat g = .ok (out, b2, g2) → b2 = b) ∧
    (∀ (σ α : Type) (b : PrioritizedReplayBuffer2 σ α) (batch_size : Nat) (pRat : ℚ) (g : Rng)
        (out : Batch σ α) (b2 : PrioritizedReplayBuffer2 σ α) (g2 : Rng),
        b.sample_batch batch_size pRat g = .ok (out, b2, g2) → b2 = b) := by
  refine ⟨?_, ?_, ?_⟩
  · intro σ α b k g out b2 g2 h
    unfold ReplayBuffer.sample_batch at h
    rcases hX : (if b.count < k then pySampleK b.buffer (b.count : ℤ) g
                 else pySampleK b.buffer (k : ℤ) g) with msg | q
    · rw [hX] at h
      exact Except.noConfusion h
    · rw [hX] at h
      obtain ⟨batch, gx⟩ := q
      simp only [Except.ok.injEq, Prod.mk.injEq] at h
      exact h.2.1.symm
  · intro σ α b k p g out b2 g2 h
    unfold PrioritizedReplayBuffer.sample_batch at h
    rcases hX : pySampleK b.buffer_pos (posSampleSize k p b.buffer_pos.length) g with msg | q
    · rw [hX] at h
      exact Except.noConfusion h
    · rw [hX] at h
      obtain ⟨pos_batch, g1⟩ := q
      dsimp only at h
      rcases hY : pySampleK b.buffer_neg
          (negSampleSize k p b.buffer_pos.length b.buffer_neg.length) g1 with msg2 | q2
      · rw [hY] at h
        exact Except.noConfusion h
      · rw [hY] at h
        obtain ⟨neg_batch, gx⟩ := q2
        simp only [Except.ok.injEq, Prod.mk.injEq] at h
        exact h.2.1.symm
  · intro σ α b k p g out b2 g2 h
    unfold PrioritizedReplayBuffer2.sample_batch at h
    rcases hX : (if posSampleSize k p b.buffer_pos.length ≠ 0 then
        npChoiceWeighted b.buffer_pos.length (posSampleSize k p b.buffer_pos.length) g
      else .ok ([], g)) with msg | q
    · rw [hX] at h
      exact Except.noConfusion h
    · rw [hX] at h
      obtain ⟨pos_idx, g1⟩ := q
      dsimp only at h
      rcases hY : npChoice b.buffer_neg.length
          (negSampleSize k p b.buffer_pos.length b.buffer_neg.length) g1 with msg2 | q2
      · rw [hY] at h
        exact Except.noConfusion h
      · rw [hY] at h
        obtain ⟨neg_idx, gx⟩ := q2
        simp only [Except.ok.injEq, Prod.mk.injEq] at h
        exact h.2.1.symm

/-- Witness for C10: the three `sample_batch` calls evaluated on concrete
fresh buffers, each returning the unchanged state. -/
theorem claim_C10_sample_batch_frame_witness :
    ((ReplayBuffer.init 1 : ReplayBuffer Nat Nat).sample_batch 0 ⟨fun _ => 0, 0⟩ =
      .ok (batchOf [], ReplayBuffer.init 1, ⟨fun _ => 0, 0⟩)) ∧
    ((PrioritizedReplayBuffer.init 1 : PrioritizedReplayBuffer Nat Nat).sample_batch 0 0
        ⟨fun _ => 0, 0⟩ =
      .ok (batchOf [], PrioritizedReplayBuffer.init 1, ⟨fun _ => 0, 0⟩)) ∧
    ((PrioritizedReplayBuffer2.init 1 : PrioritizedReplayBuffer2 Nat Nat).sample_batch 0 0
        ⟨fun _ => 0, 0⟩ =
      .ok (batchOf [], PrioritizedReplayBuffer2.init 1, ⟨fun _ => 0, 0⟩)) ∧
    (ReplayBuffer.init 1 : ReplayBuffer Nat Nat) = ReplayBuffer.init 1 ∧
    (PrioritizedReplayBuffer.init 1 : PrioritizedReplayBuffer Nat Nat) =
      PrioritizedReplayBuffer.init 1 ∧
    (PrioritizedReplayBuffer2.init 1 : PrioritizedReplayBuffer2 Nat Nat) =
      PrioritizedReplayBuffer2.init 1 := by
  refine ⟨rfl, rfl, rfl, ?_, ?_, ?_⟩
  · exact claim_C10_sample_batch_frame.1 Nat Nat (ReplayBuffer.init 1) 0 ⟨fun _ => 0, 0⟩
      (batchOf []) (ReplayBuffer.init 1) ⟨fun _ => 0, 0⟩ rfl
  · exact claim_C10_sample_batch_frame.2.1 Nat Nat (PrioritizedReplayBuffer.init 1) 0 0
      ⟨fun _ => 0, 0⟩ (batchOf []) (PrioritizedReplayBuffer.init 1) ⟨fun _ => 0, 0⟩ rfl
  · exact claim_C10_sample_batch_frame.2.2 Nat Nat (PrioritizedReplayBuffer2.init 1) 0 0
      ⟨fun _ => 0, 0⟩ (batchOf []) (PrioritizedReplayBuffer2.init 1) ⟨fun _ => 0, 0⟩ rfl

/-- Witness for C7: the ratio-targeting scenario of the spec — batch size 20
and ratio 1/4 against 5 stored positive and 15 stored negative transitions
give exactly 5 positive-origin and 15 negative-origin samples. -/
theorem claim_C7_stratified_ratio_witness :
    ((0 : ℚ) ≤ 1 / 4) ∧ ((1 / 4 : ℚ) ≤ 1) ∧
    (∃ (posB negB : List (Transition Nat Nat)) (g2 : Rng),
      List.Subperm posB (List.replicate 5 ⟨0, 0, 1, false, 0⟩) ∧
      List.Subperm negB (List.replicate 15 ⟨0, 0, 0, false, 0⟩) ∧
      posB.length = min ⌊(20 : ℚ) * (1 / 4)⌋.toNat
        (List.replicate 5 (⟨0, 0, 1, false, 0⟩ : Transition Nat Nat)).length ∧
      negB.length = min (20 - posB.length)
        (List.replicate 15 (⟨0, 0, 0, false, 0⟩ : Transition Nat Nat)).length ∧
      (⟨20, List.replicate 5 ⟨0, 0, 1, false, 0⟩, List.replicate 15 ⟨0, 0, 0, false, 0⟩⟩ :
          PrioritizedReplayBuffer Nat Nat).sample_batch 20 (1 / 4) ⟨fun _ => 0, 0⟩ =
        .ok (batchOf (posB ++ negB),
          ⟨20, List.replicate 5 ⟨0, 0, 1, false, 0⟩, List.replicate 15 ⟨0, 0, 0, false, 0⟩⟩,
          g2)) :=
  ⟨by decide, by decide,
    claim_C7_stratified_ratio
      ⟨20, List.replicate 5 ⟨0, 0, 1, false, 0⟩, List.replicate 15 ⟨0, 0, 0, false, 0⟩⟩
      20 (1 / 4) ⟨fun _ => 0, 0⟩ (by decide) (by decide)⟩

/-- Call sequence for the C3 determinism analysis: two adds with reward 0
(routed to the negative partition of every stratified class) followed by one
`sample_batch(1, p_ratio=0.25)`. -/
def c3calls : List (BufCall Nat Nat) :=
  [BufCall.add ⟨0, 0, 0, false, 0⟩, BufCall.add ⟨1, 1, 0, false, 1⟩,
    BufCall.sample 1 (1 / 4)]

/-- Ambient interpreter state whose numpy stream yields 0 forever. -/
def c3g0 : Globals := ⟨⟨fun _ => 0, 0⟩, ⟨fun _ => 0, 0⟩⟩

/-- Ambient interpreter state with the same python stream but a numpy stream
yielding 1 forever. -/
def c3g1 : Globals := ⟨⟨fun _ => 0, 0⟩, ⟨fun _ => 1, 0⟩⟩

/-- Claim C3 counterexample: `WeightedStratifiedBuffer` is not deterministic
in the seed and call sequence alone.  Under the same seed (123), the same
capacity and the identical call sequence, two runs differing only in the
ambient state of numpy's global generator return different batches, because
both draws of `PrioritizedReplayBuffer2.sample_batch` consume
`np.random.*`, which the constructor — seeding only python's `random`
module — never initializes. -/
theorem claim_C3_counterexample :
    runWeighted (fun _ _ => 0) 10 123 c3g0 c3calls ≠
      runWeighted (fun _ _ => 0) 10 123 c3g1 c3calls := by
  intro h
  have h0 : runWeighted (fun _ _ => 0) 10 123 c3g0 c3calls =
      .ok [⟨[0], [0], [0], [false], [0]⟩] := rfl
  have h1 : runWeighted (fun _ _ => 0) 10 123 c3g1 c3calls =
      .ok [⟨[1], [1], [0], [false], [1]⟩] := rfl
  rw [h0, h1] at h
  simp at h

/-- Claim C3 (amended): runs are deterministic in the seed and the call
sequence for `UniformBuffer` and `StratifiedBuffer` whatever the ambient
interpreter state, since their draws consume only the python generator that
the constructor reseeds; for `WeightedStratifiedBuffer` identical batches
are guaranteed only when the ambient numpy generator states also coincide,
because its draws consume numpy's global generator, which construction never
seeds. -/
theorem claim_C3_amended_determinism {σ α : Type} (mt : Nat → Nat → Nat)
    (buffer_size seed : Nat) (g1 g2 : Globals) (calls : List (BufCall σ α)) :
    runUniform mt buffer_size seed g1 calls = runUniform mt buffer_size seed g2 calls ∧
    runStratified mt buffer_size seed g1 calls = runStratified mt buffer_size seed g2 calls ∧
    (g1.np = g2.np →
      runWeighted mt buffer_size seed g1 calls = runWeighted mt buffer_size seed g2 calls) := by
  refine ⟨rfl, rfl, fun h => ?_⟩
  unfold runWeighted
  rw [h]

/-- Witness for the amended C3: a concrete seed, concrete calls and two
ambient states that differ in the python stream but share the numpy
stream. -/
theorem claim_C3_amended_determinism_witness :
    ((⟨⟨fun _ => 5, 7⟩, ⟨fun _ => 0, 0⟩⟩ : Globals).np = c3g0.np) ∧
    (runUniform (fun _ _ => 0) 10 123 ⟨⟨fun _ => 5, 7⟩, ⟨fun _ => 0, 0⟩⟩ c3calls =
        runUniform (fun _ _ => 0) 10 123 c3g0 c3calls ∧
      runStratified (fun _ _ => 0) 10 123 ⟨⟨fun _ => 5, 7⟩, ⟨fun _ => 0, 0⟩⟩ c3calls =
        runStratified (fun _ _ => 0) 10 123 c3g0 c3calls ∧
      ((⟨⟨fun _ => 5, 7⟩, ⟨fun _ => 0, 0⟩⟩ : Globals).np = c3g0.np →
        runWeighted (fun _ _ => 0) 10 123 ⟨⟨fun _ => 5, 7⟩, ⟨fun _ => 0, 0⟩⟩ c3calls =
          runWeighted (fun _ _ => 0) 10 123 c3g0 c3calls)) :=
  ⟨rfl, claim_C3_amended_determinism (fun _ _ => 0) 10 123
    ⟨⟨fun _ => 5, 7⟩, ⟨fun _ => 0, 0⟩⟩ c3g0 c3calls⟩
